import Mathlib

/-!  Shallow embedding of the pixijs scene-graph core (the `DisplayObject`
class) and the extension registry (`Extensions.ts`), with theorems checking
the specification claims against the code.

Modelling conventions:
* JS numbers are rationals (`Rat`); the structural dataflow of the code is
  representation-independent here, no rounding-sensitive arithmetic is claimed.
* JS object identity is a numeric id (`NodeId`) into an explicit heap
  (`Store.heap`); `new DisplayObject()` allocates at `Store.nextId`.
* JS exceptions are `Except` results paired with the heap at throw time, so
  mutations performed before a throw are observable (as in JS).
* The global `window.pixiChanged` flag is the `Store.pixiChanged` field.
* `Store.calcCalls` is a ghost counter bumped exactly when the
  `calculateBounds` hook is invoked; no operation reads it.
-/

namespace Pixi

/-- Modelled from the spec: 2D point value of the external `@pixi/math`
package (consumed as an opaque value type). -/
structure Point where
  x : Rat
  y : Rat
deriving DecidableEq, Repr

/-- Modelled from the spec: 2x3 affine matrix of the external `@pixi/math`
package. -/
structure Matrix where
  a : Rat
  b : Rat
  c : Rat
  d : Rat
  tx : Rat
  ty : Rat
deriving DecidableEq, Repr

def Matrix.identity : Matrix := ⟨1, 0, 0, 1, 0, 0⟩

/-- Modelled from the spec: composition of affine maps, `concat p l` is the
map applying `l` first and then `p` (parent-world times own-local). -/
def Matrix.concat (p l : Matrix) : Matrix :=
  ⟨l.a * p.a + l.b * p.c,
   l.a * p.b + l.b * p.d,
   l.c * p.a + l.d * p.c,
   l.c * p.b + l.d * p.d,
   l.tx * p.a + l.ty * p.c + p.tx,
   l.tx * p.b + l.ty * p.d + p.ty⟩

/-- Modelled from the spec: applying an affine matrix to a point. -/
def Matrix.apply (m : Matrix) (pt : Point) : Point :=
  ⟨m.a * pt.x + m.c * pt.y + m.tx, m.b * pt.x + m.d * pt.y + m.ty⟩

/-- Modelled from the spec: inverse application; fails on a degenerate
(non-invertible) matrix, which the spec surfaces as a distinct failure. -/
def Matrix.applyInverse (m : Matrix) (pt : Point) : Option Point :=
  let det := m.a * m.d - m.b * m.c
  if det = 0 then none
  else some ⟨(m.d * (pt.x - m.tx) - m.c * (pt.y - m.ty)) / det,
             (m.a * (pt.y - m.ty) - m.b * (pt.x - m.tx)) / det⟩

/-- Modelled from the spec: the external `Transform` value type; holds local
components and a local and a world matrix, and exposes
`updateTransform(parentTransform)` which recomputes the world matrix from the
parent's world matrix.  The relation between the components and the local
matrix is opaque to the core (the core never reads it), so it is left
unconstrained here. -/
structure Transform where
  position : Point
  scale : Point
  pivot : Point
  skew : Point
  rotation : Rat
  localMatrix : Matrix
  worldMatrix : Matrix
deriving DecidableEq, Repr

/-- Modelled from the spec: `Transform.updateTransform(parentTransform)`
recomputes this transform's world matrix from the parent transform's world
matrix (composed with the own local matrix). -/
def Transform.updateTransform (t parentT : Transform) : Transform :=
  { t with worldMatrix := Matrix.concat parentT.worldMatrix t.localMatrix }

/-- Modelled from the spec: the default `Transform` (identity). -/
def Transform.default : Transform :=
  ⟨⟨0, 0⟩, ⟨1, 1⟩, ⟨0, 0⟩, ⟨0, 0⟩, 0, Matrix.identity, Matrix.identity⟩

/-- Result rectangle type of the external `@pixi/math` package. -/
structure Rect where
  x : Rat
  y : Rat
  width : Rat
  height : Rat
deriving DecidableEq, Repr

def Rect.zero : Rect := ⟨0, 0, 0, 0⟩

/-- Modelled from the spec: the `Bounds` accumulator (`./Bounds` is not under
the given sources; per the spec it can be reset, grown by rectangles and read
out via `getRectangle`).  Only its deterministic read-out matters here. -/
structure Bounds where
  minX : Rat
  minY : Rat
  maxX : Rat
  maxY : Rat
deriving DecidableEq, Repr

def Bounds.default : Bounds := ⟨0, 0, 0, 0⟩

/-- Modelled from the spec: `Bounds.getRectangle` writes the accumulated
axis-aligned rectangle into the supplied output rectangle and returns it. -/
def Bounds.getRectangle (b : Bounds) : Rect :=
  ⟨b.minX, b.minY, b.maxX - b.minX, b.maxY - b.minY⟩

abbrev NodeId := Nat

/-- JS exception outcomes: `typeError` for null/undefined dereference,
`jsError` for an explicit `throw new Error(msg)`, `outOfFuel` standing for a
non-terminating parent walk (unreachable on acyclic heaps). -/
inductive JsErr where
  | typeError : JsErr
  | jsError : String → JsErr
  | outOfFuel : JsErr
deriving DecidableEq, Repr

/-- Per-object state of a `DisplayObject`, one field per instance property of
the constructor (underscores dropped).  `children` and `listeners` are the
boundary state touched by `destroy` through `Container.removeChild` and
`EventEmitter.removeAllListeners`, neither of which is under the given
sources; they are modelled from the spec ("detaches from parent, clears
listeners").  `hitArea`, `interactive` and `interactiveChildren` are only
ever written by `destroy`. -/
structure NodeRec where
  tempDisplayObjectParent : Option NodeId
  transform : Option Transform
  alpha : Rat
  visible : Bool
  renderable : Bool
  parent : Option NodeId
  worldAlpha : Rat
  lastSortedIndex : Int
  zIndex : Int
  filterArea : Option Unit
  filters : Option Unit
  enabledFilters : Option Unit
  bounds : Option Bounds
  boundsID : Int
  lastBoundsID : Int
  boundsRect : Option Rect
  localBoundsRect : Option Rect
  mask : Option NodeId
  destroyed : Bool
  isSprite : Bool
  isMask : Bool
  listeners : Nat
  children : List NodeId
  hitArea : Option Unit
  interactive : Bool
  interactiveChildren : Bool
deriving DecidableEq, Repr

/-- The field values set by the `DisplayObject` constructor. -/
def newNodeRec : NodeRec where
  tempDisplayObjectParent := none
  transform := some Transform.default
  alpha := 1
  visible := true
  renderable := true
  parent := none
  worldAlpha := 1
  lastSortedIndex := 0
  zIndex := 0
  filterArea := none
  filters := none
  enabledFilters := none
  bounds := some Bounds.default
  boundsID := 0
  lastBoundsID := -1
  boundsRect := none
  localBoundsRect := none
  mask := none
  destroyed := false
  isSprite := false
  isMask := false
  listeners := 0
  children := []
  hitArea := none
  interactive := false
  interactiveChildren := false

/-- The mutable world: a heap of display objects, the allocation counter, the
global `window.pixiChanged` flag, and the ghost `calculateBounds` call
counter. -/
structure Store where
  heap : NodeId → Option NodeRec
  nextId : NodeId
  pixiChanged : Bool
  calcCalls : Nat

def Store.get (s : Store) (i : NodeId) : Option NodeRec := s.heap i

def Store.set (s : Store) (i : NodeId) (n : NodeRec) : Store :=
  { s with heap := fun j => if j = i then some n else s.heap j }

@[simp] theorem Store.get_set (s : Store) (i j : NodeId) (n : NodeRec) :
    (s.set i n).get j = if j = i then some n else s.get j := rfl

@[simp] theorem Store.set_nextId (s : Store) (i : NodeId) (n : NodeRec) :
    (s.set i n).nextId = s.nextId := rfl

@[simp] theorem Store.set_pixiChanged (s : Store) (i : NodeId) (n : NodeRec) :
    (s.set i n).pixiChanged = s.pixiChanged := rfl

@[simp] theorem Store.set_calcCalls (s : Store) (i : NodeId) (n : NodeRec) :
    (s.set i n).calcCalls = s.calcCalls := rfl

theorem Store.get_set_self (s : Store) (i : NodeId) (n : NodeRec) :
    (s.set i n).get i = some n := by simp

/-- Allocation of `new DisplayObject()`: writes the constructor record at
`nextId` and bumps the counter. -/
def Store.alloc (s : Store) : NodeId × Store :=
  (s.nextId, { heap := fun j => if j = s.nextId then some newNodeRec else s.heap j,
               nextId := s.nextId + 1,
               pixiChanged := s.pixiChanged,
               calcCalls := s.calcCalls })

@[simp] theorem Store.get_bumpCalc (s : Store) (c : Nat) (j : NodeId) :
    ({ s with calcCalls := c } : Store).get j = s.get j := rfl

@[simp] theorem Store.get_setFlag (s : Store) (b : Bool) (j : NodeId) :
    ({ s with pixiChanged := b } : Store).get j = s.get j := rfl

@[simp] theorem Store.get_alloc (s : Store) (j : NodeId) :
    s.alloc.2.get j = if j = s.nextId then some newNodeRec else s.get j := rfl

@[simp] theorem Store.alloc_fst (s : Store) : s.alloc.1 = s.nextId := rfl

@[simp] theorem Store.alloc_pixiChanged (s : Store) : s.alloc.2.pixiChanged = s.pixiChanged := rfl

@[simp] theorem Store.alloc_calcCalls (s : Store) : s.alloc.2.calcCalls = s.calcCalls := rfl

/-- A store is well formed when nothing lives at or beyond the allocation
counter (always true for heaps built by `Store.alloc`). -/
def Store.WF (s : Store) : Prop := ∀ i, s.nextId ≤ i → s.heap i = none

/-- `DisplayObject.updateTransform` (source lines 260-267): bumps
`_boundsID`, asks the own transform to recompute its world matrix from
`this.parent.transform`, then sets `worldAlpha = alpha * parent.worldAlpha`.
Reading `this.parent.transform` on a null parent throws. -/
def updateTransform (s : Store) (nid : NodeId) : Except JsErr Unit × Store :=
  match s.get nid with
  | none => (.error .typeError, s)
  | some n =>
    let n1 : NodeRec := { n with boundsID := n.boundsID + 1 }
    let s1 := s.set nid n1
    match n1.parent with
    | none => (.error .typeError, s1)
    | some pid =>
      match s1.get pid with
      | none => (.error .typeError, s1)
      | some p =>
        match n1.transform, p.transform with
        | some t, some pt =>
          (.ok (), s1.set nid { n1 with
            transform := some (Transform.updateTransform t pt),
            worldAlpha := n1.alpha * p.worldAlpha })
        | _, _ => (.error .typeError, s1)

/-- C1: for every node `N` whose parent `P` is non-null, `updateTransform(N)`
increments `N`'s boundsId by exactly one, recomputes `N`'s world matrix from
`P`'s world matrix (by handing `P.transform` to `N.transform`'s update), and
sets `N.worldAlpha` to exactly `N.alpha * P.worldAlpha`. -/
theorem C1_updateTransform (s : Store) (nid pid : NodeId) (n p : NodeRec)
    (t pt : Transform)
    (hn : s.get nid = some n) (hpar : n.parent = some pid)
    (hp : s.get pid = some p)
    (ht : n.transform = some t) (hpt : p.transform = some pt) :
    (updateTransform s nid).1 = Except.ok () ∧
    (updateTransform s nid).2.get nid = some
      { n with boundsID := n.boundsID + 1,
               transform := some (Transform.updateTransform t pt),
               worldAlpha := n.alpha * p.worldAlpha } := by
  unfold updateTransform
  rw [hn]
  by_cases hpn : pid = nid
  · subst hpn
    have hnp : n = p := by rw [hn] at hp; exact Option.some.inj hp
    subst hnp
    have hpt2 : pt = t := by rw [ht] at hpt; exact (Option.some.inj hpt).symm
    subst hpt2
    simp [hpar, ht, Store.get_set]
  · simp only [hpar, Store.get_set, if_neg hpn]
    rw [hp]
    simp [ht, hpt]

/-- Concrete heap for the C1 witness: node 0 is root-like, node 1 has
parent 0. -/
def c1Store : Store :=
  { heap := fun j => if j = 0 then some newNodeRec else
      if j = 1 then some { newNodeRec with parent := some 0 } else none,
    nextId := 2, pixiChanged := false, calcCalls := 0 }

def c1Node : NodeRec := { newNodeRec with parent := some 0 }

/-- Closed witness for C1 on a concrete two-node heap. -/
theorem C1_updateTransform_witness :
    (updateTransform c1Store 1).1 = Except.ok () ∧
    (updateTransform c1Store 1).2.get 1 = some
      { c1Node with boundsID := c1Node.boundsID + 1,
                    transform := some (Transform.updateTransform Transform.default Transform.default),
                    worldAlpha := c1Node.alpha * newNodeRec.worldAlpha } :=
  C1_updateTransform c1Store 1 0 c1Node newNodeRec Transform.default Transform.default
    rfl rfl rfl rfl rfl

/-! ## Extension registry (`src/extensions/Extensions.ts`) -/

/-- The `ExtensionType` enum (source lines 11-42). -/
inductive ExtensionType where
  | renderer
  | application
  | webglPipes
  | webglPipesAdaptor
  | webglSystem
  | webgpuPipes
  | webgpuPipesAdaptor
  | webgpuSystem
  | canvasSystem
  | canvasPipesAdaptor
  | canvasPipes
  | asset
  | loadParser
  | resolveParser
  | cacheParser
  | detectionParser
  | maskEffect
  | blendMode
deriving DecidableEq, Repr

/-- The string value of each enum member, used in the duplicate-handler
error message. -/
def ExtensionType.str : ExtensionType → String
  | .renderer => "renderer"
  | .application => "application"
  | .webglPipes => "webgl-pipes"
  | .webglPipesAdaptor => "webgl-pipes-adaptor"
  | .webglSystem => "webgl-system"
  | .webgpuPipes => "webgpu-pipes"
  | .webgpuPipesAdaptor => "webgpu-pipes-adaptor"
  | .webgpuSystem => "webgpu-system"
  | .canvasSystem => "canvas-system"
  | .canvasPipesAdaptor => "canvas-pipes-adaptor"
  | .canvasPipes => "canvas-pipes"
  | .asset => "asset"
  | .loadParser => "load-parser"
  | .resolveParser => "resolve-parser"
  | .cacheParser => "cache-parser"
  | .detectionParser => "detection-parser"
  | .maskEffect => "mask-effect"
  | .blendMode => "blend-mode"

/-- The `type` field of extension metadata: either a single enum value
(a JS string) or an array of them. -/
inductive TypeField where
  | one : ExtensionType → TypeField
  | many : List ExtensionType → TypeField
deriving DecidableEq, Repr

/-- Mirrors `if (typeof ext.type === 'string') ext.type = [ext.type]`. -/
def TypeField.toList : TypeField → List ExtensionType
  | .one t => [t]
  | .many ts => ts

/-- The value of an `extension` static property: either a bare
`ExtensionType` string or an `ExtensionMetadataDetails` object. -/
inductive MetaSpec where
  | bare : ExtensionType → MetaSpec
  | details : TypeField → Option String → Option Int → MetaSpec
deriving DecidableEq, Repr

/-- Mirrors `(typeof ext.extension !== 'object') ? { type: ext.extension } :
ext.extension`. -/
def MetaSpec.toDetails : MetaSpec → TypeField × Option String × Option Int
  | .bare t => (.one t, none, none)
  | .details ty nm pr => (ty, nm, pr)

/-- A JS value handed to `extensions.add` / stored as an extension `ref`:
`cls cid ext extsPlural` is a function (class), `cid` standing for its object
identity, `ext` its (own or inherited) `extension` static property and
`extsPlural` a static property named `extensions` (plural), which
`normalizeExtension` never reads; `descr` is a plain object descriptor
(`{ type, name, priority, ref }`, no `extension` property of its own);
`prim` is any non-object non-function value. -/
inductive ExtVal where
  | cls : Nat → Option MetaSpec → Option MetaSpec → ExtVal
  | descr : TypeField → Option String → Option Int → ExtVal → ExtVal
  | prim : ExtVal
deriving DecidableEq, Repr

/-- The strict `ExtensionFormat` produced by normalization. -/
structure ExtensionFormat where
  type : List ExtensionType
  name : Option String
  priority : Option Int
  ref : ExtVal
deriving DecidableEq, Repr

/-- `normalizeExtension` (source lines 83-115): a class must carry an
`extension` static property (else the debug throw fires); its metadata is
spread into the format with the class itself as `ref`.  A plain descriptor
object is copied.  Anything else is an invalid extension type.  Finally a
bare string `type` is wrapped into a one-element array. -/
def normalizeExtension : ExtVal → Except String ExtensionFormat
  | .cls cid ext extPl =>
    match ext with
    | none => .error "Extension class must have an extension object"
    | some m =>
      let d := m.toDetails
      .ok { type := d.1.toList, name := d.2.1, priority := d.2.2,
            ref := .cls cid ext extPl }
  | .descr ty nm pr r => .ok { type := ty.toList, name := nm, priority := pr, ref := r }
  | .prim => .error "Invalid extension type"

/-- `normalizeExtensionPriority` (source lines 124-125):
`normalizeExtension(ext).priority ?? defaultPriority`. -/
def normalizeExtensionPriority (ext : ExtVal) (defaultPriority : Int) : Except String Int :=
  (normalizeExtension ext).map (fun f => f.priority.getD defaultPriority)

/-- Total sort key used when reasoning about `handleByList`'s comparator.
It agrees with `normalizeExtensionPriority` whenever normalization succeeds;
in JS a failing ref would make the comparator throw out of `Array#sort`, so
all list-ordering claims are stated for refs that normalize successfully. -/
def priorityKey (defaultPriority : Int) (v : ExtVal) : Int :=
  match normalizeExtension v with
  | .ok f => f.priority.getD defaultPriority
  | .error _ => defaultPriority

/-- Process-wide extension registry state, parametrised by the state `σ` the
installed handler closures act on.  The three JS record objects become
finite maps. -/
structure Registry (σ : Type) where
  addHandlers : ExtensionType → Option (ExtensionFormat → σ → σ)
  removeHandlers : ExtensionType → Option (ExtensionFormat → σ → σ)
  queue : ExtensionType → Option (List ExtensionFormat)

def Registry.empty {σ : Type} : Registry σ := ⟨fun _ => none, fun _ => none, fun _ => none⟩

/-- Mirrors `extensions.map(normalizeExtension)`: normalizes every item
before any registration effect, aborting at the first invalid one. -/
def mapNormalize : List ExtVal → Except String (List ExtensionFormat)
  | [] => .ok []
  | x :: xs =>
    match normalizeExtension x with
    | .error e => .error e
    | .ok y =>
      match mapNormalize xs with
      | .error e => .error e
      | .ok ys => .ok (y :: ys)

/-- One normalized record's effect in `extensions.add`: for each declared
type, queue it if no add-handler is installed, otherwise invoke the
handler. -/
def Registry.addOne {σ : Type} (acc : Registry σ × σ) (ext : ExtensionFormat) :
    Registry σ × σ :=
  ext.type.foldl (fun acc ty =>
    match acc.1.addHandlers ty with
    | none =>
      ({ acc.1 with queue := fun t' =>
          if t' = ty then some (((acc.1.queue ty).getD []) ++ [ext]) else acc.1.queue t' },
       acc.2)
    | some h => (acc.1, h ext acc.2)) acc

/-- `extensions.add` (source lines 162-185). -/
def Registry.add {σ : Type} (items : List ExtVal) (r : Registry σ) (st : σ) :
    Except String Unit × Registry σ × σ :=
  match mapNormalize items with
  | .error e => (.error e, r, st)
  | .ok fmts => (.ok (), fmts.foldl Registry.addOne (r, st))

/-- `extensions.remove` (source lines 147-155): only installed
remove-handlers run (`?.` optional call); the registry maps themselves are
untouched. -/
def Registry.remove {σ : Type} (items : List ExtVal) (r : Registry σ) (st : σ) :
    Except String Unit × Registry σ × σ :=
  match mapNormalize items with
  | .error e => (.error e, r, st)
  | .ok fmts =>
    (.ok (), r, fmts.foldl (fun st ext =>
      ext.type.foldl (fun st ty =>
        match r.removeHandlers ty with
        | some h => h ext st
        | none => st) st) st)

/-- `extensions.handle` (source lines 194-220): throws if either handler
slot for `type` is taken (before installing anything); otherwise installs
both handlers, then drains the pending queue for `type` in FIFO order
through `onAdd` and deletes the queue entry. -/
def Registry.handle {σ : Type} (t : ExtensionType)
    (onAdd onRemove : ExtensionFormat → σ → σ) (r : Registry σ) (st : σ) :
    Except String Unit × Registry σ × σ :=
  if (r.addHandlers t).isSome || (r.removeHandlers t).isSome then
    (.error ("Extension type " ++ t.str ++ " already has a handler"), r, st)
  else
    let r1 : Registry σ :=
      { addHandlers := fun t' => if t' = t then some onAdd else r.addHandlers t',
        removeHandlers := fun t' => if t' = t then some onRemove else r.removeHandlers t',
        queue := r.queue }
    match r1.queue t with
    | some q =>
      (.ok (), { r1 with queue := fun t' => if t' = t then none else r1.queue t' },
       q.foldl (fun st ext => onAdd ext st) st)
    | none => (.ok (), r1, st)

/-- `list.indexOf(ref)` followed by `splice(index, 1)`: remove the first
occurrence by identity, no-op when absent. -/
def eraseFirst (x : ExtVal) : List ExtVal → List ExtVal
  | [] => []
  | y :: ys => if y = x then ys else y :: eraseFirst x ys

/-- Stable insertion (descending by key): the inserted element goes after
every earlier element of equal or higher key. -/
def insertDesc (key : ExtVal → Int) (x : ExtVal) : List ExtVal → List ExtVal
  | [] => [x]
  | y :: ys => if key y > key x then y :: insertDesc key x ys else x :: y :: ys

/-- Stable descending sort.  `Array.prototype.sort` with comparator
`(a, b) => key(b) - key(a)` is mandated stable, and any stable sort for the
same preorder yields the same list, so insertion sort models it exactly. -/
def sortDesc (key : ExtVal → Int) : List ExtVal → List ExtVal
  | [] => []
  | x :: xs => insertDesc key x (sortDesc key xs)

/-- The `onAdd` closure of `handleByList` (source lines 287-297): skip a ref
already present by identity, else push and re-sort the whole list descending
by `normalizeExtensionPriority(ref, defaultPriority)`. -/
def handleByListOnAdd (defaultPriority : Int) (ext : ExtensionFormat)
    (list : List ExtVal) : List ExtVal :=
  if ext.ref ∈ list then list
  else sortDesc (priorityKey defaultPriority) (list ++ [ext.ref])

/-- The `onRemove` closure of `handleByList` (source lines 298-306). -/
def handleByListOnRemove (ext : ExtensionFormat) (list : List ExtVal) : List ExtVal :=
  eraseFirst ext.ref list

/-- `extensions.handleByList` (source lines 283-308); the captured target
list is the handler state, `defaultPriority` defaults to `-1` at the TS call
boundary. -/
def Registry.handleByList (t : ExtensionType) (defaultPriority : Int)
    (r : Registry (List ExtVal)) (st : List ExtVal) :
    Except String Unit × Registry (List ExtVal) × List ExtVal :=
  Registry.handle t (handleByListOnAdd defaultPriority) handleByListOnRemove r st

/-- C3: extensions `A`, `B` added (in that order) to a point `t` with no
handler installed are queued; a later `handle(t, onAdd, onRemove)` invokes
`onAdd` on `A` first and then on `B` (the drained queue is `[fA, fB]`, in
FIFO arrival order), and the pending queue for `t` is discarded
afterwards. -/
theorem C3_handle_drains_fifo {σ : Type} (r : Registry σ) (st : σ)
    (t : ExtensionType) (A B : ExtVal) (fA fB : ExtensionFormat)
    (onAdd onRemove : ExtensionFormat → σ → σ)
    (hA : normalizeExtension A = .ok fA) (hAt : fA.type = [t])
    (hB : normalizeExtension B = .ok fB) (hBt : fB.type = [t])
    (hadd : r.addHandlers t = none) (hrem : r.removeHandlers t = none)
    (hq : r.queue t = none) :
    (Registry.add [A] r st).1 = .ok () ∧
    ((Registry.add [B] (Registry.add [A] r st).2.1 (Registry.add [A] r st).2.2).2.1.queue t
      = some [fA, fB]) ∧
    (Registry.handle t onAdd onRemove
        (Registry.add [B] (Registry.add [A] r st).2.1 (Registry.add [A] r st).2.2).2.1
        (Registry.add [B] (Registry.add [A] r st).2.1 (Registry.add [A] r st).2.2).2.2).2.2
      = onAdd fB (onAdd fA st) ∧
    (Registry.handle t onAdd onRemove
        (Registry.add [B] (Registry.add [A] r st).2.1 (Registry.add [A] r st).2.2).2.1
        (Registry.add [B] (Registry.add [A] r st).2.1 (Registry.add [A] r st).2.2).2.2).2.1.queue t
      = none := by
  simp only [Registry.add, mapNormalize, hA, hB, List.foldl, Registry.addOne, hAt, hBt,
    hadd, hrem, hq, Registry.handle]
  simp [hadd, hrem, hq]

def c3Empty : Registry (List ExtensionFormat) := Registry.empty

def c3A : ExtVal := .cls 7 (some (.bare .renderer)) none

def c3B : ExtVal := .cls 8 (some (.bare .renderer)) none

def c3fA : ExtensionFormat := { type := [.renderer], name := none, priority := none, ref := c3A }

def c3fB : ExtensionFormat := { type := [.renderer], name := none, priority := none, ref := c3B }

def c3OnAdd : ExtensionFormat → List ExtensionFormat → List ExtensionFormat :=
  fun ext l => l ++ [ext]

def c3OnRemove : ExtensionFormat → List ExtensionFormat → List ExtensionFormat :=
  fun _ l => l

/-- Closed witness for C3 on a concrete registry. -/
theorem C3_handle_drains_fifo_witness :
    (Registry.add [c3A] c3Empty []).1 = .ok () ∧
    ((Registry.add [c3B]
        (Registry.add [c3A] c3Empty []).2.1
        (Registry.add [c3A] c3Empty []).2.2).2.1.queue .renderer
      = some [c3fA, c3fB]) ∧
    (Registry.handle .renderer c3OnAdd c3OnRemove
        (Registry.add [c3B] (Registry.add [c3A] c3Empty []).2.1
          (Registry.add [c3A] c3Empty []).2.2).2.1
        (Registry.add [c3B] (Registry.add [c3A] c3Empty []).2.1
          (Registry.add [c3A] c3Empty []).2.2).2.2).2.2
      = c3OnAdd c3fB (c3OnAdd c3fA []) ∧
    (Registry.handle .renderer c3OnAdd c3OnRemove
        (Registry.add [c3B] (Registry.add [c3A] c3Empty []).2.1
          (Registry.add [c3A] c3Empty []).2.2).2.1
        (Registry.add [c3B] (Registry.add [c3A] c3Empty []).2.1
          (Registry.add [c3A] c3Empty []).2.2).2.2).2.1.queue .renderer
      = none :=
  C3_handle_drains_fifo c3Empty [] .renderer c3A c3B c3fA c3fB c3OnAdd c3OnRemove
    rfl rfl rfl rfl rfl rfl rfl

/-- C5: a second `handle` call for an already-claimed point fails with the
already-registered error and leaves the registry (hence the existing
handlers) unchanged; on a fresh point `handle` installs both handlers. -/
theorem C5_handle_singleton {σ : Type} (r : Registry σ) (st : σ)
    (t : ExtensionType) (onAdd onRemove : ExtensionFormat → σ → σ) :
    (((r.addHandlers t).isSome || (r.removeHandlers t).isSome) = true →
      Registry.handle t onAdd onRemove r st =
        (.error ("Extension type " ++ t.str ++ " already has a handler"), r, st)) ∧
    (r.addHandlers t = none → r.removeHandlers t = none →
      (Registry.handle t onAdd onRemove r st).1 = .ok () ∧
      (Registry.handle t onAdd onRemove r st).2.1.addHandlers t = some onAdd ∧
      (Registry.handle t onAdd onRemove r st).2.1.removeHandlers t = some onRemove) := by
  constructor
  · intro h
    simp only [Registry.handle, h, if_true]
  · intro h1 h2
    simp only [Registry.handle, h1, h2, Option.isSome_none, Bool.or_self, Bool.false_eq_true,
      if_false]
    cases hq : r.queue t <;> simp

/-- Occupied registry for the C5 witness: every add-handler slot is
taken. -/
def c5Occupied : Registry Nat :=
  { addHandlers := fun _ => some (fun _ st => st + 1),
    removeHandlers := fun _ => none,
    queue := fun _ => none }

def c5OnAdd : ExtensionFormat → Nat → Nat := fun _ st => st

def c5OnRemove : ExtensionFormat → Nat → Nat := fun _ st => st + 2

/-- Closed witness for C5: an occupied point rejects a second handler, a
fresh point accepts one. -/
theorem C5_handle_singleton_witness :
    (Registry.handle .asset c5OnAdd c5OnRemove c5Occupied 0 =
      (.error ("Extension type " ++ ExtensionType.str .asset ++ " already has a handler"),
        c5Occupied, 0)) ∧
    ((Registry.handle .asset c5OnAdd c5OnRemove Registry.empty 0).1 = .ok () ∧
      (Registry.handle .asset c5OnAdd c5OnRemove
          Registry.empty 0).2.1.addHandlers .asset = some c5OnAdd ∧
      (Registry.handle .asset c5OnAdd c5OnRemove
          Registry.empty 0).2.1.removeHandlers .asset = some c5OnRemove) :=
  ⟨(C5_handle_singleton c5Occupied 0 .asset c5OnAdd c5OnRemove).1 rfl,
   (C5_handle_singleton Registry.empty 0 .asset c5OnAdd c5OnRemove).2 rfl rfl⟩

/-- `NegationBlend` (source `NegationBlend.ts`): its metadata lives under a
static property named `extensions` (plural), so the `extension` (singular)
property that `normalizeExtension` reads is absent. -/
def NegationBlend : ExtVal :=
  .cls 0 none (some (.details (.one .blendMode) (some "negation") none))

/-- `ExclusionBlend` (source `ExclusionBlend.ts`): same `extensions`
(plural) static property. -/
def ExclusionBlend : ExtVal :=
  .cls 1 none (some (.details (.one .blendMode) (some "exclusion") none))

/-- C10: `extensions.add` on any function (class) without an own or
inherited `extension` property raises the missing-extension-object error and
performs no registration; in particular the module-level
`extensions.add(NegationBlend)` and `extensions.add(ExclusionBlend)` calls
fail instead of registering the blend modes, because those classes declare
their metadata under `extensions` (plural), which `normalizeExtension` does
not read. -/
theorem C10_add_class_without_extension {σ : Type} :
    (∀ (cid : Nat) (extPl : Option MetaSpec) (r : Registry σ) (st : σ),
      Registry.add [ExtVal.cls cid none extPl] r st =
        (.error "Extension class must have an extension object", r, st)) ∧
    (∀ (r : Registry σ) (st : σ),
      Registry.add [NegationBlend] r st =
        (.error "Extension class must have an extension object", r, st)) ∧
    (∀ (r : Registry σ) (st : σ),
      Registry.add [ExclusionBlend] r st =
        (.error "Extension class must have an extension object", r, st)) := by
  refine ⟨fun cid extPl r st => rfl, fun r st => rfl, fun r st => rfl⟩

theorem mem_insertDesc (key : ExtVal → Int) (x a : ExtVal) (l : List ExtVal) :
    a ∈ insertDesc key x l ↔ a = x ∨ a ∈ l := by
  induction l with
  | nil => simp [insertDesc]
  | cons y ys ih =>
    by_cases h : key y > key x
    · simp [insertDesc, h, ih]
      try tauto
    · simp [insertDesc, h]
      try tauto

theorem pairwise_insertDesc (key : ExtVal → Int) (x : ExtVal) (l : List ExtVal)
    (h : l.Pairwise (fun a b => key b ≤ key a)) :
    (insertDesc key x l).Pairwise (fun a b => key b ≤ key a) := by
  induction l with
  | nil => simp [insertDesc]
  | cons y ys ih =>
    rcases List.pairwise_cons.mp h with ⟨hy, hys⟩
    by_cases hk : key y > key x
    · rw [insertDesc, if_pos hk]
      refine List.pairwise_cons.mpr ⟨?_, ih hys⟩
      intro b hb
      rcases (mem_insertDesc key x b ys).mp hb with hbx | hbm
      · subst hbx; exact le_of_lt hk
      · exact hy b hbm
    · rw [insertDesc, if_neg hk]
      push_neg at hk
      refine List.pairwise_cons.mpr ⟨?_, h⟩
      intro b hb
      rcases List.mem_cons.mp hb with hby | hbm
      · subst hby; exact hk
      · exact le_trans (hy b hbm) hk

theorem pairwise_sortDesc (key : ExtVal → Int) (l : List ExtVal) :
    (sortDesc key l).Pairwise (fun a b => key b ≤ key a) := by
  induction l with
  | nil => simp [sortDesc]
  | cons x xs ih => exact pairwise_insertDesc key x _ ih

theorem filter_insertDesc_of_eq (key : ExtVal → Int) (x : ExtVal) (p : Int)
    (l : List ExtVal) (hx : key x = p) :
    (insertDesc key x l).filter (fun v => decide (key v = p)) =
      x :: l.filter (fun v => decide (key v = p)) := by
  induction l with
  | nil => simp [insertDesc, List.filter_cons, hx]
  | cons y ys ih =>
    by_cases hk : key y > key x
    · have hyp : ¬ (key y = p) := by rw [← hx]; exact ne_of_gt hk
      rw [insertDesc, if_pos hk]
      simp [List.filter_cons, hyp, ih]
    · rw [insertDesc, if_neg hk]
      simp [List.filter_cons, hx]

theorem filter_insertDesc_of_ne (key : ExtVal → Int) (x : ExtVal) (p : Int)
    (l : List ExtVal) (hx : key x ≠ p) :
    (insertDesc key x l).filter (fun v => decide (key v = p)) =
      l.filter (fun v => decide (key v = p)) := by
  induction l with
  | nil => simp [insertDesc, List.filter_cons, hx]
  | cons y ys ih =>
    by_cases hk : key y > key x
    · rw [insertDesc, if_pos hk]
      by_cases hyp : key y = p <;> simp [List.filter_cons, hyp, ih]
    · rw [insertDesc, if_neg hk]
      simp [List.filter_cons, hx]

/-- Stability of `sortDesc`: each equal-priority class keeps its input
order. -/
theorem filter_sortDesc (key : ExtVal → Int) (p : Int) (l : List ExtVal) :
    (sortDesc key l).filter (fun v => decide (key v = p)) =
      l.filter (fun v => decide (key v = p)) := by
  induction l with
  | nil => rfl
  | cons x xs ih =>
    by_cases hx : key x = p
    · rw [sortDesc, filter_insertDesc_of_eq key x p _ hx, ih]
      simp [List.filter_cons, hx]
    · rw [sortDesc, filter_insertDesc_of_ne key x p _ hx, ih]
      simp [List.filter_cons, hx]

def c4P5 : ExtVal := .cls 20 (some (.details (.one .asset) none (some 5))) none

def c4PM1 : ExtVal := .cls 21 (some (.details (.one .asset) none (some (-1)))) none

def c4P10 : ExtVal := .cls 22 (some (.details (.one .asset) none (some 10))) none

def c4Empty : Registry (List ExtVal) := Registry.empty

/-- Registry and list state after `handleByList('asset', list, -1)` and the
three `add` calls with priorities 5, -1, 10, in that order. -/
def c4Step0 : Except String Unit × Registry (List ExtVal) × List ExtVal :=
  Registry.handleByList .asset (-1) c4Empty []

def c4Step1 : Except String Unit × Registry (List ExtVal) × List ExtVal :=
  Registry.add [c4P5] c4Step0.2.1 c4Step0.2.2

def c4Step2 : Except String Unit × Registry (List ExtVal) × List ExtVal :=
  Registry.add [c4PM1] c4Step1.2.1 c4Step1.2.2

def c4Step3 : Except String Unit × Registry (List ExtVal) × List ExtVal :=
  Registry.add [c4P10] c4Step2.2.1 c4Step2.2.2

/-- C4: adding extensions with priorities `[5, -1, 10]` (in that order) to a
`handleByList` target leaves the list in order `[10, 5, -1]`; in general the
list after an `onAdd` of a fresh ref is the stable descending re-sort of the
pushed list under `priorityKey` (unspecified priorities defaulting to the
handler's `defaultPriority`), the sorted list is descending, equal-priority
entries retain their input order, and a ref already present by identity is
not added twice. -/
theorem C4_handleByList_priority_order :
    (c4Step3.2.2 = [c4P10, c4P5, c4PM1]) ∧
    (∀ (d : Int) (ext : ExtensionFormat) (list : List ExtVal),
      ext.ref ∈ list → handleByListOnAdd d ext list = list) ∧
    (∀ (d : Int) (ext : ExtensionFormat) (list : List ExtVal),
      ext.ref ∉ list →
        handleByListOnAdd d ext list = sortDesc (priorityKey d) (list ++ [ext.ref])) ∧
    (∀ (d : Int) (l : List ExtVal),
      (sortDesc (priorityKey d) l).Pairwise
        (fun a b => priorityKey d b ≤ priorityKey d a)) ∧
    (∀ (d p : Int) (l : List ExtVal),
      (sortDesc (priorityKey d) l).filter (fun v => decide (priorityKey d v = p)) =
        l.filter (fun v => decide (priorityKey d v = p))) := by
  refine ⟨by decide, ?_, ?_, ?_, ?_⟩
  · intro d ext list h
    simp [handleByListOnAdd, h]
  · intro d ext list h
    simp [handleByListOnAdd, h]
  · intro d l
    exact pairwise_sortDesc (priorityKey d) l
  · intro d p l
    exact filter_sortDesc (priorityKey d) p l

/-- Closed witness for C4: the dedup clause at a concrete present ref and
the re-sort clause at a concrete fresh ref. -/
theorem C4_handleByList_priority_order_witness :
    (handleByListOnAdd (-1)
        { type := [.asset], name := none, priority := some 5, ref := c4P5 }
        [c4P5] = [c4P5]) ∧
    (handleByListOnAdd (-1)
        { type := [.asset], name := none, priority := some 10, ref := c4P10 }
        [c4P5, c4PM1] =
      sortDesc (priorityKey (-1)) ([c4P5, c4PM1] ++ [c4P10])) :=
  ⟨C4_handleByList_priority_order.2.1 (-1)
      { type := [.asset], name := none, priority := some 5, ref := c4P5 }
      [c4P5] (by decide),
   C4_handleByList_priority_order.2.2.1 (-1)
      { type := [.asset], name := none, priority := some 10, ref := c4P10 }
      [c4P5, c4PM1] (by decide)⟩

/-! ## Scene-graph operations (`DisplayObject`) -/

/-- The `_tempDisplayObjectParent` getter (source lines 245-253): the
sentinel slot is a per-instance field, lazily filled with a fresh
`new DisplayObject()` on first use. -/
def getTempDisplayObjectParent (s : Store) (nid : NodeId) :
    Except JsErr NodeId × Store :=
  match s.get nid with
  | none => (.error .typeError, s)
  | some n =>
    match n.tempDisplayObjectParent with
    | some tid => (.ok tid, s)
    | none =>
      let a := s.alloc
      match a.2.get nid with
      | none => (.error .typeError, a.2)
      | some n1 => (.ok a.1, a.2.set nid { n1 with tempDisplayObjectParent := some a.1 })

/-- Behaviour of a `calculateBounds` override: from the node's state it
produces the new `_bounds` content, or throws.  The base-class hook (source
lines 274-277) does nothing. -/
abbrev CalcHook := NodeRec → Except JsErr (Option Bounds)

def calculateBounds : CalcHook := fun n => .ok n.bounds

/-- Invocation of the `calculateBounds` hook; bumps the ghost call
counter. -/
def runCalculateBounds (hook : CalcHook) (s : Store) (nid : NodeId) :
    Except JsErr Unit × Store :=
  match s.get nid with
  | none => (.error .typeError, s)
  | some n =>
    let s1 : Store := { s with calcCalls := s.calcCalls + 1 }
    match hook n with
    | .error e => (.error e, s1)
    | .ok b => (.ok (), s1.set nid { n with bounds := b })

/-- Plain JS field assignment `this.parent = v` (`parent` has no accessor). -/
def setParent (s : Store) (nid : NodeId) (v : Option NodeId) :
    Except JsErr Unit × Store :=
  match s.get nid with
  | none => (.error .typeError, s)
  | some n => (.ok (), s.set nid { n with parent := v })

/-- The `transform` property setter (source lines 177-189): when the global
changed flag is already set, the comparison chain short-circuits and the
value is stored; otherwise all nine component comparisons are evaluated,
which dereferences both the current `_transform` and the incoming value and
hence throws on `null`. -/
def transformSet (s : Store) (nid : NodeId) (value : Option Transform) :
    Except JsErr Unit × Store :=
  match s.get nid with
  | none => (.error .typeError, s)
  | some n =>
    if s.pixiChanged then
      (.ok (), s.set nid { n with transform := value })
    else
      match n.transform, value with
      | some cur, some v =>
        let changed :=
          decide (cur.position.x ≠ v.position.x) || decide (cur.position.y ≠ v.position.y) ||
          decide (cur.scale.x ≠ v.scale.x) || decide (cur.scale.y ≠ v.scale.y) ||
          decide (cur.rotation ≠ v.rotation) ||
          decide (cur.skew.x ≠ v.skew.x) || decide (cur.skew.y ≠ v.skew.y) ||
          decide (cur.pivot.x ≠ v.pivot.x) || decide (cur.pivot.y ≠ v.pivot.y)
        (.ok (), { s with pixiChanged := changed }.set nid { n with transform := value })
      | _, _ => (.error .typeError, s)

/-- `_recursivePostUpdateTransform` (source lines 283-294), with a fuel
bound on the parent chain (any bound at least the chain length gives the JS
behaviour; a cyclic chain diverges in JS and runs out of fuel here). -/
def recursivePostUpdateTransform : Nat → Store → NodeId → Except JsErr Unit × Store
  | 0, s, _ => (.error .outOfFuel, s)
  | fuel + 1, s, nid =>
    match s.get nid with
    | none => (.error .typeError, s)
    | some n =>
      match n.parent with
      | some pid =>
        match recursivePostUpdateTransform fuel s pid with
        | (.error e, s1) => (.error e, s1)
        | (.ok _, s1) =>
          match s1.get nid with
          | none => (.error .typeError, s1)
          | some n1 =>
            match s1.get pid with
            | none => (.error .typeError, s1)
            | some p =>
              match n1.transform, p.transform with
              | some t, some pt =>
                (.ok (), s1.set nid { n1 with transform := some (t.updateTransform pt) })
              | _, _ => (.error .typeError, s1)
      | none =>
        match getTempDisplayObjectParent s nid with
        | (.error e, s1) => (.error e, s1)
        | (.ok tid, s1) =>
          match s1.get nid with
          | none => (.error .typeError, s1)
          | some n1 =>
            match s1.get tid with
            | none => (.error .typeError, s1)
            | some tp =>
              match n1.transform, tp.transform with
              | some t, some pt =>
                (.ok (), s1.set nid { n1 with transform := some (t.updateTransform pt) })
              | _, _ => (.error .typeError, s1)

/-- The transform-refresh block of `getBounds` (source lines 307-320), run
when `skipUpdate` is false: a detached node borrows its sentinel parent for
one `updateTransform` and then has `parent` set back to null; an attached
node gets a recursive post-update walk followed by `updateTransform`. -/
def getBoundsUpdatePhase (s : Store) (nid : NodeId) : Except JsErr Unit × Store :=
  match s.get nid with
  | none => (.error .typeError, s)
  | some n0 =>
    match n0.parent with
    | none =>
      match getTempDisplayObjectParent s nid with
      | (.error e, s1) => (.error e, s1)
      | (.ok tid, s1) =>
        match setParent s1 nid (some tid) with
        | (.error e, s2) => (.error e, s2)
        | (.ok _, s2) =>
          match updateTransform s2 nid with
          | (.error e, s3) => (.error e, s3)
          | (.ok _, s3) => setParent s3 nid none
    | some _ =>
      match recursivePostUpdateTransform (s.nextId + 1) s nid with
      | (.error e, s1) => (.error e, s1)
      | (.ok _, s1) => updateTransform s1 nid

/-- The cache-refresh block of `getBounds` (source lines 322-326): when the
bounds id differs from the cache tag, run the `calculateBounds` hook and
stamp `lastBoundsID`. -/
def getBoundsCachePhase (hook : CalcHook) (s : Store) (nid : NodeId) :
    Except JsErr Unit × Store :=
  match s.get nid with
  | none => (.error .typeError, s)
  | some n1 =>
    if n1.boundsID ≠ n1.lastBoundsID then
      match runCalculateBounds hook s nid with
      | (.error e, s2) => (.error e, s2)
      | (.ok _, s2) =>
        match s2.get nid with
        | none => (.error .typeError, s2)
        | some n2 => (.ok (), s2.set nid { n2 with lastBoundsID := n2.boundsID })
    else (.ok (), s)

/-- The read-out block of `getBounds` (source lines 328-338): default the
output rectangle to the node-owned `_boundsRect` cache when none is passed,
then read `_bounds.getRectangle` (value-modelled: the cache field ends up
holding the returned rectangle). -/
def getBoundsReadPhase (s : Store) (nid : NodeId) (rectArg : Option Rect) :
    Except JsErr Rect × Store :=
  match s.get nid with
  | none => (.error .typeError, s)
  | some n3 =>
    match rectArg with
    | some _ =>
      match n3.bounds with
      | none => (.error .typeError, s)
      | some b => (.ok b.getRectangle, s)
    | none =>
      let n4 : NodeRec := { n3 with boundsRect := some (n3.boundsRect.getD Rect.zero) }
      let s3 := s.set nid n4
      match n4.bounds with
      | none => (.error .typeError, s3)
      | some b =>
        (.ok b.getRectangle, s3.set nid { n4 with boundsRect := some b.getRectangle })

/-- `getBounds` (source lines 305-339), parametrised by the node\'s
`calculateBounds` behaviour: transform refresh (unless `skipUpdate`), cache
refresh, read-out. -/
def getBounds (hook : CalcHook) (s : Store) (nid : NodeId) (skipUpdate : Bool)
    (rectArg : Option Rect) : Except JsErr Rect × Store :=
  match s.get nid with
  | none => (.error .typeError, s)
  | some _ =>
    match (if skipUpdate then (.ok (), s) else getBoundsUpdatePhase s nid) with
    | (.error e, s1) => (.error e, s1)
    | (.ok _, s1) =>
      match getBoundsCachePhase hook s1 nid with
      | (.error e, s2) => (.error e, s2)
      | (.ok _, s2) => getBoundsReadPhase s2 nid rectArg

/-- The restoration tail of `getLocalBounds` (source lines 367-368):
`this.parent = parentRef; this.transform = transformRef` (the second through
the transform setter). -/
def restoreRefs (s : Store) (nid : NodeId) (pref : Option NodeId)
    (tref : Option Transform) : Except JsErr Unit × Store :=
  match setParent s nid pref with
  | (.error e, s6) => (.error e, s6)
  | (.ok _, s6) => transformSet s6 nid tref

/-- `getLocalBounds` (source lines 347-371): swaps the transform and parent
for the sentinel's, computes `getBounds(false, rect)`, then restores both.
There is no try/finally in the source, so a throw out of `getBounds`
propagates without the restoration assignments running. -/
def getLocalBounds (hook : CalcHook) (s : Store) (nid : NodeId) (rectArg : Option Rect) :
    Except JsErr Rect × Store :=
  match s.get nid with
  | none => (.error .typeError, s)
  | some n0 =>
    let transformRef := n0.transform
    let parentRef := n0.parent
    let s1 := s.set nid { n0 with parent := none }
    match getTempDisplayObjectParent s1 nid with
    | (.error e, s2) => (.error e, s2)
    | (.ok tid, s2) =>
      match s2.get tid with
      | none => (.error .typeError, s2)
      | some tp =>
        match transformSet s2 nid tp.transform with
        | (.error e, s3) => (.error e, s3)
        | (.ok _, s3) =>
          let res : Except JsErr Rect × Store :=
            match rectArg with
            | some r0 => getBounds hook s3 nid false (some r0)
            | none =>
              match s3.get nid with
              | none => (.error .typeError, s3)
              | some n1 =>
                let c0 := n1.localBoundsRect.getD Rect.zero
                let s4 := s3.set nid { n1 with localBoundsRect := some c0 }
                match getBounds hook s4 nid false (some c0) with
                | (.error e, s5) => (.error e, s5)
                | (.ok r, s5) =>
                  match s5.get nid with
                  | none => (.error .typeError, s5)
                  | some n2 => (.ok r, s5.set nid { n2 with localBoundsRect := some r })
          match res with
          | (.error e, s5) => (.error e, s5)
          | (.ok r, s5) =>
            match restoreRefs s5 nid parentRef transformRef with
            | (.error e, s7) => (.error e, s7)
            | (.ok _, s7) => (.ok r, s7)

/-- The shared update block of `toGlobal` / `toLocal` (source lines 384-401
and 424-441): recursive post-update walk, then
`displayObjectUpdateTransform` (an alias of `updateTransform`, source line
804) with the per-node sentinel substituted for a missing parent. -/
def postUpdateBlock (s : Store) (nid : NodeId) : Except JsErr Unit × Store :=
  match recursivePostUpdateTransform (s.nextId + 1) s nid with
  | (.error e, s1) => (.error e, s1)
  | (.ok _, s1) =>
    match s1.get nid with
    | none => (.error .typeError, s1)
    | some n1 =>
      match n1.parent with
      | none =>
        match getTempDisplayObjectParent s1 nid with
        | (.error e, s2) => (.error e, s2)
        | (.ok tid, s2) =>
          match setParent s2 nid (some tid) with
          | (.error e, s3) => (.error e, s3)
          | (.ok _, s3) =>
            match updateTransform s3 nid with
            | (.error e, s4) => (.error e, s4)
            | (.ok _, s4) => setParent s4 nid none
      | some _ => updateTransform s1 nid

/-- `toGlobal` (source lines 382-405). -/
def toGlobal (s : Store) (nid : NodeId) (position : Point) (skipUpdate : Bool) :
    Except JsErr Point × Store :=
  match s.get nid with
  | none => (.error .typeError, s)
  | some _ =>
    let step : Except JsErr Unit × Store :=
      if skipUpdate then (.ok (), s) else postUpdateBlock s nid
    match step with
    | (.error e, s1) => (.error e, s1)
    | (.ok _, s1) =>
      match s1.get nid with
      | none => (.error .typeError, s1)
      | some n2 =>
        match n2.transform with
        | none => (.error .typeError, s1)
        | some t => (.ok (t.worldMatrix.apply position), s1)

/-- `toLocal` (source lines 417-445): optionally routes the point through
`from.toGlobal` first, then applies the inverse of the own world matrix; a
degenerate world matrix is the distinct failure the spec surfaces. -/
def toLocal (s : Store) (nid : NodeId) (position : Point) (fromId : Option NodeId)
    (skipUpdate : Bool) : Except JsErr Point × Store :=
  let inner : Except JsErr Point × Store :=
    match fromId with
    | some fid => toGlobal s fid position skipUpdate
    | none => (.ok position, s)
  match inner with
  | (.error e, s1) => (.error e, s1)
  | (.ok pos1, s1) =>
    match s1.get nid with
    | none => (.error .typeError, s1)
    | some _ =>
      let step : Except JsErr Unit × Store :=
        if skipUpdate then (.ok (), s1) else postUpdateBlock s1 nid
      match step with
      | (.error e, s2) => (.error e, s2)
      | (.ok _, s2) =>
        match s2.get nid with
        | none => (.error .typeError, s2)
        | some n2 =>
          match n2.transform with
          | none => (.error .typeError, s2)
          | some t =>
            match t.worldMatrix.applyInverse pos1 with
            | none => (.error (.jsError "degenerate transform"), s2)
            | some p => (.ok p, s2)

/-- The `mask` setter (source lines 774-794): sets the global changed flag,
restores `renderable`/`isMask` on the previous mask target, stores the new
value, then flags the new target.  Every heap object is a `DisplayObject`
without a `maskObject` property, so `this._mask.maskObject || this._mask`
is the mask node itself. -/
def maskSet (s0 : Store) (nid : NodeId) (value : Option NodeId) :
    Except JsErr Unit × Store :=
  match s0.get nid with
  | none => (.error .typeError, s0)
  | some n =>
    let s : Store := { s0 with pixiChanged := true }
    let step1 : Except JsErr Unit × Store :=
      match n.mask with
      | some mid =>
        match s.get mid with
        | none => (.error .typeError, s)
        | some m => (.ok (), s.set mid { m with renderable := true, isMask := false })
      | none => (.ok (), s)
    match step1 with
    | (.error e, s1) => (.error e, s1)
    | (.ok _, s1) =>
      match s1.get nid with
      | none => (.error .typeError, s1)
      | some n1 =>
        let s2 := s1.set nid { n1 with mask := value }
        match value with
        | none => (.ok (), s2)
        | some mid2 =>
          match s2.get mid2 with
          | none => (.error .typeError, s2)
          | some m2 => (.ok (), s2.set mid2 { m2 with renderable := false, isMask := true })

/-- Modelled from the spec: `Container.removeChild` is not under the given
sources; per the spec it detaches the child from the parent's child
collection and clears the child's parent back-reference. -/
def removeChild (s : Store) (pid cid : NodeId) : Except JsErr Unit × Store :=
  match s.get pid with
  | none => (.error .typeError, s)
  | some p =>
    let s1 := s.set pid { p with children := p.children.erase cid }
    match s1.get cid with
    | none => (.error .typeError, s1)
    | some c => (.ok (), s1.set cid { c with parent := none })

/-- `destroy` (source lines 522-544): detach from the parent, clear
listeners (`EventEmitter.removeAllListeners`, modelled from the spec), null
the transform through its setter, then null out the owned references and
mark the node destroyed.  The write-only legacy `_currentBounds` slot is not
modelled. -/
def destroy (s : Store) (nid : NodeId) : Except JsErr Unit × Store :=
  match s.get nid with
  | none => (.error .typeError, s)
  | some n =>
    let step1 : Except JsErr Unit × Store :=
      match n.parent with
      | some pid => removeChild s pid nid
      | none => (.ok (), s)
    match step1 with
    | (.error e, s1) => (.error e, s1)
    | (.ok _, s1) =>
      match s1.get nid with
      | none => (.error .typeError, s1)
      | some n1 =>
        let s2 := s1.set nid { n1 with listeners := 0 }
        match transformSet s2 nid none with
        | (.error e, s3) => (.error e, s3)
        | (.ok _, s3) =>
          match s3.get nid with
          | none => (.error .typeError, s3)
          | some n2 =>
            (.ok (), s3.set nid { n2 with
              parent := none, bounds := none, mask := none,
              filters := none, filterArea := none, hitArea := none,
              interactive := false, interactiveChildren := false,
              destroyed := true })

theorem getBoundsCachePhase_clean (hook : CalcHook) (s : Store) (nid : NodeId)
    (n : NodeRec) (hg : s.get nid = some n) (hid : n.boundsID = n.lastBoundsID) :
    getBoundsCachePhase hook s nid = (.ok (), s) := by
  unfold getBoundsCachePhase
  rw [hg]
  simp [hid]

theorem getBoundsCachePhase_ok_clean (hook : CalcHook) (s : Store) (nid : NodeId)
    (u : Unit) (s2 : Store)
    (h : getBoundsCachePhase hook s nid = (.ok u, s2)) :
    ∃ n2, s2.get nid = some n2 ∧ n2.boundsID = n2.lastBoundsID := by
  unfold getBoundsCachePhase runCalculateBounds at h
  repeat' split at h
  all_goals try (simp_all [Store.get_set]; done)
  all_goals (injection h with h1 h2; subst h2;
             exact ⟨_, Store.get_set_self _ _ _, rfl⟩)

theorem getBoundsReadPhase_run (s : Store) (nid : NodeId) (rectArg : Option Rect)
    (n : NodeRec) (b : Bounds) (hg : s.get nid = some n) (hb : n.bounds = some b) :
    (getBoundsReadPhase s nid rectArg).1 = .ok b.getRectangle ∧
    (getBoundsReadPhase s nid rectArg).2.calcCalls = s.calcCalls ∧
    ((getBoundsReadPhase s nid rectArg).2.get nid).map NodeRec.lastBoundsID
      = some n.lastBoundsID := by
  unfold getBoundsReadPhase
  simp only [hg]
  cases rectArg <;> simp [hg, hb, Store.get_set]

theorem getBoundsReadPhase_calcCalls (s : Store) (nid : NodeId) (rectArg : Option Rect) :
    (getBoundsReadPhase s nid rectArg).2.calcCalls = s.calcCalls := by
  unfold getBoundsReadPhase
  cases hg : s.get nid with
  | none => simp
  | some n =>
    cases rectArg with
    | some r0 => cases hb : n.bounds <;> simp [hb]
    | none => cases hb : n.bounds <;> simp [hb]

theorem getBoundsReadPhase_ok_inv (s : Store) (nid : NodeId) (rectArg : Option Rect)
    (r : Rect) (s' : Store)
    (h : getBoundsReadPhase s nid rectArg = (.ok r, s')) :
    ∃ n n' b, s.get nid = some n ∧ s'.get nid = some n' ∧ n.bounds = some b ∧
      r = b.getRectangle ∧ n'.bounds = some b ∧ n'.boundsID = n.boundsID ∧
      n'.lastBoundsID = n.lastBoundsID := by
  unfold getBoundsReadPhase at h
  cases hg : s.get nid with
  | none => simp only [hg] at h; simp at h
  | some n =>
    simp only [hg] at h
    cases rectArg with
    | some r0 =>
      cases hb : n.bounds with
      | none => simp only [hb] at h; simp at h
      | some b =>
        simp only [hb] at h
        injection h with h1 h2
        injection h1 with h1
        subst h2
        exact ⟨n, n, b, rfl, hg, hb, h1.symm, hb, rfl, rfl⟩
    | none =>
      cases hb : n.bounds with
      | none => simp only [hb] at h; simp at h
      | some b =>
        simp only [hb] at h
        injection h with h1 h2
        injection h1 with h1
        subst h2
        exact ⟨n, _, b, rfl, Store.get_set_self _ _ _, hb, h1.symm, rfl, rfl, rfl⟩

/-- C2: with `skipUpdate = true` and no mutation in between, a second
`getBounds` call returns the bit-identical rectangle of the first, invokes
the `calculateBounds` hook zero times (the ghost call counter is unchanged)
and leaves `lastBoundsID` unchanged; and in general, once
`lastBoundsID = boundsID` a `getBounds(skipUpdate = true)` query never
invokes the hook until a mutation bumps `boundsID`. -/
theorem C2_getBounds_idempotent (hook : CalcHook) (s : Store) (nid : NodeId)
    (rectArg : Option Rect) (r1 : Rect) (s1 : Store)
    (h1 : getBounds hook s nid true rectArg = (.ok r1, s1)) :
    (getBounds hook s1 nid true rectArg).1 = .ok r1 ∧
    (getBounds hook s1 nid true rectArg).2.calcCalls = s1.calcCalls ∧
    ((getBounds hook s1 nid true rectArg).2.get nid).map NodeRec.lastBoundsID
      = (s1.get nid).map NodeRec.lastBoundsID ∧
    (∀ (hook2 : CalcHook) (s2 : Store) (nid2 : NodeId) (rect2 : Option Rect) (n2 : NodeRec),
      s2.get nid2 = some n2 → n2.boundsID = n2.lastBoundsID →
      (getBounds hook2 s2 nid2 true rect2).2.calcCalls = s2.calcCalls) := by
  have hlast : ∀ (hook2 : CalcHook) (s2 : Store) (nid2 : NodeId) (rect2 : Option Rect)
      (n2 : NodeRec), s2.get nid2 = some n2 → n2.boundsID = n2.lastBoundsID →
      (getBounds hook2 s2 nid2 true rect2).2.calcCalls = s2.calcCalls := by
    intro hook2 s2 nid2 rect2 n2 hg2 hcl2
    have hcp3 := getBoundsCachePhase_clean hook2 s2 nid2 n2 hg2 hcl2
    unfold getBounds
    simp only [hg2, if_true, hcp3]
    exact getBoundsReadPhase_calcCalls s2 nid2 rect2
  unfold getBounds at h1
  simp only [if_true] at h1
  cases hg0 : s.get nid with
  | none => simp only [hg0] at h1; simp at h1
  | some n0 =>
    simp only [hg0] at h1
    cases hc : getBoundsCachePhase hook s nid with
    | mk e2 s2 =>
      simp only [hc] at h1
      cases e2 with
      | error e => simp at h1
      | ok u =>
        obtain ⟨nc, hgc, hcl⟩ := getBoundsCachePhase_ok_clean hook s nid u s2 hc
        obtain ⟨n, n', b, hga, hga', hb, hr, hb', hbid, hlid⟩ :=
          getBoundsReadPhase_ok_inv s2 nid rectArg r1 s1 h1
        have hnn : n = nc := by rw [hga] at hgc; exact Option.some.inj hgc
        subst hnn
        have hclean' : n'.boundsID = n'.lastBoundsID := by rw [hbid, hlid]; exact hcl
        have hcp2 := getBoundsCachePhase_clean hook s1 nid n' hga' hclean'
        have hread := getBoundsReadPhase_run s1 nid rectArg n' b hga' hb'
        unfold getBounds
        simp only [hga', if_true, hcp2]
        refine ⟨?_, hread.2.1, ?_, hlast⟩
        · rw [hr]; exact hread.1
        · rw [hread.2.2]
          rfl

def c2Store : Store :=
  { heap := fun j => if j = 0 then some newNodeRec else none,
    nextId := 1, pixiChanged := false, calcCalls := 0 }

def c2Store1 : Store := (getBounds calculateBounds c2Store 0 true none).2

def c2Node1 : NodeRec :=
  { newNodeRec with lastBoundsID := 0,
                    boundsRect := some Bounds.default.getRectangle }

/-- Closed witness for C2: on a concrete fresh node, the second cached query
repeats the first and skips the hook. -/
theorem C2_getBounds_idempotent_witness :
    ((getBounds calculateBounds c2Store1 0 true none).1 = .ok Bounds.default.getRectangle ∧
     (getBounds calculateBounds c2Store1 0 true none).2.calcCalls = c2Store1.calcCalls ∧
     ((getBounds calculateBounds c2Store1 0 true none).2.get 0).map NodeRec.lastBoundsID
       = (c2Store1.get 0).map NodeRec.lastBoundsID) ∧
    (getBounds calculateBounds c2Store1 0 true none).2.calcCalls = c2Store1.calcCalls := by
  have h := C2_getBounds_idempotent calculateBounds c2Store 0 none
    Bounds.default.getRectangle c2Store1 rfl
  exact ⟨⟨h.1, h.2.1, h.2.2.1⟩,
    h.2.2.2 calculateBounds c2Store1 0 none c2Node1 rfl rfl⟩

theorem restoreRefs_ok (s : Store) (nid : NodeId) (pref : Option NodeId)
    (tref : Option Transform) (u : Unit) (s' : Store)
    (h : restoreRefs s nid pref tref = (.ok u, s')) :
    ∃ n', s'.get nid = some n' ∧ n'.parent = pref ∧ n'.transform = tref := by
  unfold restoreRefs setParent transformSet at h
  cases hm : s.get nid with
  | none => simp only [hm] at h; simp at h
  | some n =>
    simp only [hm, Store.get_set_self] at h
    cases hf : s.pixiChanged with
    | true =>
      simp only [Store.set_pixiChanged, hf, if_true] at h
      injection h with h1 h2
      subst h2
      exact ⟨_, Store.get_set_self _ _ _, rfl, rfl⟩
    | false =>
      simp only [Store.set_pixiChanged, hf] at h
      cases htr : n.transform with
      | none =>
        cases tref with
        | none => simp only [htr] at h; simp at h
        | some v => simp only [htr] at h; simp at h
      | some cur =>
        cases tref with
        | none => simp only [htr] at h; simp at h
        | some v =>
          simp only [htr] at h
          injection h with h1 h2
          subst h2
          exact ⟨_, Store.get_set_self _ _ _, rfl, rfl⟩

/-- C7 (amended): on every normal return of `getLocalBounds`, the node's
`transform` and `parent` references are restored to their pre-call values
(the error path is not covered: the source has no try/finally, see the
counterexample). -/
theorem C7_getLocalBounds_restores_on_ok (hook : CalcHook) (s : Store) (nid : NodeId)
    (rectArg : Option Rect) (r : Rect) (s' : Store) (n0 : NodeRec)
    (hg : s.get nid = some n0)
    (h : getLocalBounds hook s nid rectArg = (.ok r, s')) :
    ∃ n', s'.get nid = some n' ∧ n'.parent = n0.parent ∧ n'.transform = n0.transform := by
  unfold getLocalBounds at h
  simp only [hg] at h
  cases ht : getTempDisplayObjectParent (s.set nid { n0 with parent := none }) nid with
  | mk e2 s2 =>
    simp only [ht] at h
    cases e2 with
    | error e => simp at h
    | ok tid =>
      cases htp : s2.get tid with
      | none => simp only [htp] at h; simp at h
      | some tp =>
        simp only [htp] at h
        cases hts : transformSet s2 nid tp.transform with
        | mk e3 s3 =>
          simp only [hts] at h
          cases e3 with
          | error e => simp at h
          | ok u3 =>
            cases rectArg with
            | some r0 =>
              cases hgb : getBounds hook s3 nid false (some r0) with
              | mk e4 s5 =>
                simp only [hgb] at h
                cases e4 with
                | error e => simp at h
                | ok rb =>
                  cases hre : restoreRefs s5 nid n0.parent n0.transform with
                  | mk e5 s7 =>
                    simp only [hre] at h
                    cases e5 with
                    | error e => simp at h
                    | ok u5 =>
                      injection h with h1 h2
                      subst h2
                      exact restoreRefs_ok s5 nid n0.parent n0.transform u5 _ hre
            | none =>
              cases hm : s3.get nid with
              | none => simp only [hm] at h; simp at h
              | some n1 =>
                simp only [hm] at h
                cases hgb : getBounds hook
                    (s3.set nid { n1 with localBoundsRect := some (n1.localBoundsRect.getD Rect.zero) })
                    nid false (some (n1.localBoundsRect.getD Rect.zero)) with
                | mk e4 s5 =>
                  simp only [hgb] at h
                  cases e4 with
                  | error e => simp at h
                  | ok rb =>
                    cases hm2 : s5.get nid with
                    | none => simp only [hm2] at h; simp at h
                    | some n2 =>
                      simp only [hm2] at h
                      cases hre : restoreRefs (s5.set nid { n2 with localBoundsRect := some rb })
                          nid n0.parent n0.transform with
                      | mk e5 s7 =>
                        simp only [hre] at h
                        cases e5 with
                        | error e => simp at h
                        | ok u5 =>
                          injection h with h1 h2
                          subst h2
                          exact restoreRefs_ok _ nid n0.parent n0.transform u5 _ hre

def c7Transform : Transform := { Transform.default with position := ⟨5, 0⟩ }

def c7Store : Store :=
  { heap := fun j => if j = 0 then some { newNodeRec with transform := some c7Transform }
      else none,
    nextId := 1, pixiChanged := false, calcCalls := 0 }

def c7Hook : CalcHook := fun _ => .error (.jsError "boom")

/-- C7 counterexample: with a throwing bounds hook, `getLocalBounds`
propagates the error and leaves the node with the sentinel transform (local
position `(0,0)` instead of the original `(5,0)`): the claimed
restoration-on-every-exit-path fails on the throw path. -/
theorem C7_getLocalBounds_counterexample :
    (getLocalBounds c7Hook c7Store 0 none).1 = .error (.jsError "boom") ∧
    ((c7Store.get 0).bind NodeRec.transform).map Transform.position = some ⟨5, 0⟩ ∧
    (((getLocalBounds c7Hook c7Store 0 none).2.get 0).bind NodeRec.transform).map
        Transform.position = some ⟨0, 0⟩ := by
  refine ⟨rfl, by decide, by decide⟩

def c7wStore : Store :=
  { heap := fun j => if j = 0 then some newNodeRec else none,
    nextId := 1, pixiChanged := false, calcCalls := 0 }

/-- Closed witness for the amended C7 on a concrete successful call. -/
theorem C7_getLocalBounds_restores_on_ok_witness :
    ∃ n', ((getLocalBounds calculateBounds c7wStore 0 none).2.get 0) = some n' ∧
      n'.parent = newNodeRec.parent ∧ n'.transform = newNodeRec.transform :=
  C7_getLocalBounds_restores_on_ok calculateBounds c7wStore 0 none
    Bounds.default.getRectangle ((getLocalBounds calculateBounds c7wStore 0 none).2)
    newNodeRec rfl rfl

theorem getBoundsUpdatePhase_detached (s : Store) (nid : NodeId) (n : NodeRec)
    (t : Transform) (hwf : s.WF) (hg : s.get nid = some n) (hpar : n.parent = none)
    (htemp : n.tempDisplayObjectParent = none) (ht : n.transform = some t) :
    (getBoundsUpdatePhase s nid).1 = .ok () ∧
    ((getBoundsUpdatePhase s nid).2.get nid).map
      (fun m => (m.parent, m.tempDisplayObjectParent)) = some (none, some s.nextId) ∧
    (getBoundsUpdatePhase s nid).2.get s.nextId = some newNodeRec := by
  have hne : nid ≠ s.nextId := by
    intro hEq
    have h2 : s.get nid = none := hwf nid (le_of_eq hEq.symm)
    rw [hg] at h2
    exact Option.noConfusion h2
  have hne' : s.nextId ≠ nid := Ne.symm hne
  unfold getBoundsUpdatePhase getTempDisplayObjectParent setParent updateTransform
  simp [hg, hpar, htemp, ht, hne, hne', newNodeRec]

theorem getBoundsCachePhase_frame (hook : CalcHook) (s : Store) (nid j : NodeId)
    (hj : j ≠ nid) :
    (getBoundsCachePhase hook s nid).2.get j = s.get j := by
  unfold getBoundsCachePhase runCalculateBounds
  cases hg : s.get nid with
  | none => simp
  | some n =>
    simp only [hg]
    by_cases hd : n.boundsID ≠ n.lastBoundsID
    · cases hh : hook n <;> simp [hd, hh, hg, hj]
    · simp [hd]

theorem getBoundsCachePhase_node_refs (hook : CalcHook) (s : Store) (nid : NodeId) :
    ((getBoundsCachePhase hook s nid).2.get nid).map
        (fun m => (m.parent, m.tempDisplayObjectParent))
      = (s.get nid).map (fun m => (m.parent, m.tempDisplayObjectParent)) := by
  unfold getBoundsCachePhase runCalculateBounds
  cases hg : s.get nid with
  | none => simp [hg]
  | some n =>
    simp only [hg]
    by_cases hd : n.boundsID ≠ n.lastBoundsID
    · cases hh : hook n <;> simp [hd, hh, hg]
    · simp [hd, hg]

theorem getBoundsReadPhase_frame (s : Store) (nid j : NodeId) (rectArg : Option Rect)
    (hj : j ≠ nid) :
    (getBoundsReadPhase s nid rectArg).2.get j = s.get j := by
  unfold getBoundsReadPhase
  cases hg : s.get nid with
  | none => simp [hg]
  | some n =>
    simp only [hg]
    cases rectArg with
    | some r0 => cases hb : n.bounds <;> simp [hb]
    | none => cases hb : n.bounds <;> simp [hb, hj]

theorem getBoundsReadPhase_node_refs (s : Store) (nid : NodeId) (rectArg : Option Rect) :
    ((getBoundsReadPhase s nid rectArg).2.get nid).map
        (fun m => (m.parent, m.tempDisplayObjectParent))
      = (s.get nid).map (fun m => (m.parent, m.tempDisplayObjectParent)) := by
  unfold getBoundsReadPhase
  cases hg : s.get nid with
  | none => simp [hg]
  | some n =>
    simp only [hg]
    cases rectArg with
    | some r0 => cases hb : n.bounds <;> simp [hb, hg]
    | none => cases hb : n.bounds <;> simp [hb, hg]

theorem postUpdateBlock_detached (s : Store) (nid : NodeId) (n : NodeRec)
    (t : Transform) (hwf : s.WF) (hg : s.get nid = some n) (hpar : n.parent = none)
    (htemp : n.tempDisplayObjectParent = none) (ht : n.transform = some t) :
    (postUpdateBlock s nid).1 = .ok () ∧
    ((postUpdateBlock s nid).2.get nid).map
      (fun m => (m.parent, m.tempDisplayObjectParent)) = some (none, some s.nextId) ∧
    (postUpdateBlock s nid).2.get s.nextId = some newNodeRec := by
  have hne : nid ≠ s.nextId := by
    intro hEq
    have h2 : s.get nid = none := hwf nid (le_of_eq hEq.symm)
    rw [hg] at h2
    exact Option.noConfusion h2
  have hne' : s.nextId ≠ nid := Ne.symm hne
  unfold postUpdateBlock recursivePostUpdateTransform getTempDisplayObjectParent setParent
    updateTransform
  simp [hg, hpar, htemp, ht, hne, hne', newNodeRec]

/-- C6 (amended): a detached node queried through `getBounds`, `toGlobal` or
`toLocal` borrows its own per-node, lazily-constructed sentinel parent — a
fresh default `DisplayObject` (identity transform, `worldAlpha = 1`, no
parent), cached in the node's `tempDisplayObjectParent` slot — and ends the
operation with `parent` reattached to null; the sentinel record itself is
left a pristine default object (in particular it never gains a parent). -/
theorem C6_per_node_sentinel (hook : CalcHook) (s : Store) (nid : NodeId) (n : NodeRec)
    (t : Transform) (rectArg : Option Rect) (pos : Point)
    (hwf : s.WF) (hg : s.get nid = some n) (hpar : n.parent = none)
    (htemp : n.tempDisplayObjectParent = none) (ht : n.transform = some t) :
    (((getBounds hook s nid false rectArg).2.get nid).map
        (fun m => (m.parent, m.tempDisplayObjectParent)) = some (none, some s.nextId) ∧
      (getBounds hook s nid false rectArg).2.get s.nextId = some newNodeRec) ∧
    (((toGlobal s nid pos false).2.get nid).map
        (fun m => (m.parent, m.tempDisplayObjectParent)) = some (none, some s.nextId) ∧
      (toGlobal s nid pos false).2.get s.nextId = some newNodeRec) ∧
    (((toLocal s nid pos none false).2.get nid).map
        (fun m => (m.parent, m.tempDisplayObjectParent)) = some (none, some s.nextId) ∧
      (toLocal s nid pos none false).2.get s.nextId = some newNodeRec) := by
  have hne : nid ≠ s.nextId := by
    intro hEq
    have h2 : s.get nid = none := hwf nid (le_of_eq hEq.symm)
    rw [hg] at h2
    exact Option.noConfusion h2
  have hne' : s.nextId ≠ nid := Ne.symm hne
  obtain ⟨hu1, hu2, hu3⟩ := getBoundsUpdatePhase_detached s nid n t hwf hg hpar htemp ht
  obtain ⟨hp1, hp2, hp3⟩ := postUpdateBlock_detached s nid n t hwf hg hpar htemp ht
  refine ⟨?_, ?_, ?_⟩
  · cases hup : getBoundsUpdatePhase s nid with
    | mk e s3 =>
      rw [hup] at hu1 hu2 hu3
      simp only [] at hu1
      subst hu1
      have hgb : (getBounds hook s nid false rectArg).2
          = (match getBoundsCachePhase hook s3 nid with
             | (.error _, s4) => s4
             | (.ok _, s4) => (getBoundsReadPhase s4 nid rectArg).2) := by
        unfold getBounds
        rw [hg]
        simp only [Bool.false_eq_true, if_false, hup]
        cases hcp : getBoundsCachePhase hook s3 nid with
        | mk e2 s4 =>
          cases e2 with
          | error e => simp
          | ok u => simp
      rw [hgb]
      cases hcp : getBoundsCachePhase hook s3 nid with
      | mk e2 s4 =>
        have hrefs := getBoundsCachePhase_node_refs hook s3 nid
        have hframe := getBoundsCachePhase_frame hook s3 nid s.nextId hne'
        rw [hcp] at hrefs hframe
        cases e2 with
        | error e =>
          simp only []
          constructor
          · rw [hrefs]; exact hu2
          · rw [hframe]; exact hu3
        | ok u =>
          simp only []
          have hrefs2 := getBoundsReadPhase_node_refs s4 nid rectArg
          have hframe2 := getBoundsReadPhase_frame s4 nid s.nextId rectArg hne'
          constructor
          · rw [hrefs2, hrefs]; exact hu2
          · rw [hframe2, hframe]; exact hu3
  · cases hpu : postUpdateBlock s nid with
    | mk e s4 =>
      rw [hpu] at hp1 hp2 hp3
      simp only [] at hp1
      subst hp1
      have htg : (toGlobal s nid pos false).2 = s4 := by
        unfold toGlobal
        rw [hg]
        simp only [Bool.false_eq_true, if_false, hpu]
        (repeat' split) <;> rfl
      rw [htg]
      exact ⟨hp2, hp3⟩
  · cases hpu : postUpdateBlock s nid with
    | mk e s4 =>
      rw [hpu] at hp1 hp2 hp3
      simp only [] at hp1
      subst hp1
      have htl : (toLocal s nid pos none false).2 = s4 := by
        unfold toLocal
        simp only [hg, Bool.false_eq_true, if_false, hpu]
        (repeat' split) <;> rfl
      rw [htl]
      exact ⟨hp2, hp3⟩

def c6Store : Store :=
  { heap := fun j => if j = 0 then some newNodeRec else
      if j = 1 then some newNodeRec else none,
    nextId := 2, pixiChanged := false, calcCalls := 0 }

def c6Store1 : Store := (getBounds calculateBounds c6Store 0 false none).2

def c6Store2 : Store := (getBounds calculateBounds c6Store1 1 false none).2

/-- C6 counterexample: two detached nodes queried through
`getBounds(skipUpdate = false)` end up with two distinct sentinel objects
(heap ids 2 and 3), refuting the claim that all detached nodes borrow one
process-wide sentinel: the sentinel slot is a per-instance field. -/
theorem C6_counterexample :
    (c6Store2.get 0).map NodeRec.tempDisplayObjectParent = some (some 2) ∧
    (c6Store2.get 1).map NodeRec.tempDisplayObjectParent = some (some 3) ∧
    (c6Store2.get 0).map NodeRec.tempDisplayObjectParent ≠
      (c6Store2.get 1).map NodeRec.tempDisplayObjectParent := by
  refine ⟨by decide, by decide, by decide⟩

/-- Closed witness for the amended C6 at a concrete detached node. -/
theorem C6_per_node_sentinel_witness :
    (((getBounds calculateBounds c6Store 0 false none).2.get 0).map
        (fun m => (m.parent, m.tempDisplayObjectParent)) = some (none, some c6Store.nextId) ∧
      (getBounds calculateBounds c6Store 0 false none).2.get c6Store.nextId
        = some newNodeRec) ∧
    (((toGlobal c6Store 0 ⟨0, 0⟩ false).2.get 0).map
        (fun m => (m.parent, m.tempDisplayObjectParent)) = some (none, some c6Store.nextId) ∧
      (toGlobal c6Store 0 ⟨0, 0⟩ false).2.get c6Store.nextId = some newNodeRec) ∧
    (((toLocal c6Store 0 ⟨0, 0⟩ none false).2.get 0).map
        (fun m => (m.parent, m.tempDisplayObjectParent)) = some (none, some c6Store.nextId) ∧
      (toLocal c6Store 0 ⟨0, 0⟩ none false).2.get c6Store.nextId = some newNodeRec) :=
  C6_per_node_sentinel calculateBounds c6Store 0 newNodeRec Transform.default none ⟨0, 0⟩
    (by
      intro i hi
      have hi2 : 2 ≤ i := hi
      have h0 : ¬(i = 0) := by intro hEq; rw [hEq] at hi2; exact absurd hi2 (by decide)
      have h1 : ¬(i = 1) := by intro hEq; rw [hEq] at hi2; exact absurd hi2 (by decide)
      show (if i = 0 then some newNodeRec else if i = 1 then some newNodeRec else none) = none
      rw [if_neg h0, if_neg h1])
    rfl rfl rfl rfl

/-- C8: the mask setter flags the new mask target
(`renderable = false, isMask = true`), restores the previous target
(`renderable = true, isMask = false`) on clearing, and on replacement first
restores the old target and then flags the new one — last writer wins, no
reference counting. -/
theorem C8_mask_setter (s : Store) (nid : NodeId) (n : NodeRec)
    (hg : s.get nid = some n) :
    (∀ mid m, s.get mid = some m → nid ≠ mid → n.mask = none →
      (maskSet s nid (some mid)).1 = .ok () ∧
      ((maskSet s nid (some mid)).2.get mid).map (fun x => (x.renderable, x.isMask))
        = some (false, true) ∧
      ((maskSet s nid (some mid)).2.get nid).bind NodeRec.mask = some mid) ∧
    (∀ mid m, s.get mid = some m → nid ≠ mid → n.mask = some mid →
      (maskSet s nid none).1 = .ok () ∧
      ((maskSet s nid none).2.get mid).map (fun x => (x.renderable, x.isMask))
        = some (true, false) ∧
      ((maskSet s nid none).2.get nid).bind NodeRec.mask = none) ∧
    (∀ mid m mid2 m2, s.get mid = some m → s.get mid2 = some m2 →
      nid ≠ mid → nid ≠ mid2 → mid ≠ mid2 → n.mask = some mid →
      ((maskSet s nid (some mid2)).2.get mid).map (fun x => (x.renderable, x.isMask))
        = some (true, false) ∧
      ((maskSet s nid (some mid2)).2.get mid2).map (fun x => (x.renderable, x.isMask))
        = some (false, true) ∧
      ((maskSet s nid (some mid2)).2.get nid).bind NodeRec.mask = some mid2) := by
  refine ⟨?_, ?_, ?_⟩
  · intro mid m hm hne hmask
    unfold maskSet
    simp [hg, hmask, hm, hne, Ne.symm hne]
  · intro mid m hm hne hmask
    unfold maskSet
    simp [hg, hmask, hm, hne, Ne.symm hne]
  · intro mid m mid2 m2 hm hm2 hne hne2 hne3 hmask
    unfold maskSet
    simp [hg, hmask, hm, hm2, hne, hne2, hne3, Ne.symm hne, Ne.symm hne2, Ne.symm hne3]

def c8Store : Store :=
  { heap := fun j => if j = 0 then some newNodeRec else
      if j = 1 then some newNodeRec else
      if j = 2 then some { newNodeRec with mask := some 1 } else none,
    nextId := 3, pixiChanged := false, calcCalls := 0 }

/-- Closed witness for C8 on a concrete three-node heap: node 2 already
masks with node 1; node 0 is fresh. -/
theorem C8_mask_setter_witness :
    ((maskSet c8Store 0 (some 1)).1 = .ok () ∧
      ((maskSet c8Store 0 (some 1)).2.get 1).map (fun x => (x.renderable, x.isMask))
        = some (false, true) ∧
      ((maskSet c8Store 0 (some 1)).2.get 0).bind NodeRec.mask = some 1) ∧
    ((maskSet c8Store 2 none).1 = .ok () ∧
      ((maskSet c8Store 2 none).2.get 1).map (fun x => (x.renderable, x.isMask))
        = some (true, false) ∧
      ((maskSet c8Store 2 none).2.get 2).bind NodeRec.mask = none) ∧
    (((maskSet c8Store 2 (some 0)).2.get 1).map (fun x => (x.renderable, x.isMask))
        = some (true, false) ∧
      ((maskSet c8Store 2 (some 0)).2.get 0).map (fun x => (x.renderable, x.isMask))
        = some (false, true) ∧
      ((maskSet c8Store 2 (some 0)).2.get 2).bind NodeRec.mask = some 0) :=
  ⟨(C8_mask_setter c8Store 0 newNodeRec rfl).1 1 newNodeRec rfl (by decide) rfl,
   (C8_mask_setter c8Store 2 { newNodeRec with mask := some 1 } rfl).2.1 1 newNodeRec
     rfl (by decide) rfl,
   (C8_mask_setter c8Store 2 { newNodeRec with mask := some 1 } rfl).2.2 1 newNodeRec 0
     newNodeRec rfl rfl (by decide) (by decide) (by decide) rfl⟩

theorem transformSet_none_ok (s : Store) (nid : NodeId) (u : Unit) (s' : Store)
    (h : transformSet s nid none = (.ok u, s')) :
    ∃ nn, s.get nid = some nn ∧ s' = s.set nid { nn with transform := none } := by
  unfold transformSet at h
  cases hm : s.get nid with
  | none => simp only [hm] at h; simp at h
  | some nn =>
    simp only [hm] at h
    cases hf : s.pixiChanged with
    | true =>
      simp only [hf, if_true] at h
      injection h with h1 h2
      exact ⟨nn, rfl, h2.symm⟩
    | false =>
      simp only [hf] at h
      cases htr : nn.transform with
      | none => simp only [htr] at h; simp at h
      | some cur => simp only [htr] at h; simp at h

/-- C9: whenever `destroy(node)` completes (returns without throwing), the
node ends with a null parent, zero listeners, all owned references released
(`transform`, `bounds`, `mask`, `filters`, `filterArea` all null) and
`destroyed = true`; and it is detached from its former parent's child
collection. -/
theorem C9_destroy (s : Store) (nid : NodeId) (n : NodeRec) (u : Unit) (s' : Store)
    (hg : s.get nid = some n) (hself : n.parent ≠ some nid)
    (hd : destroy s nid = (.ok u, s')) :
    (∃ n', s'.get nid = some n' ∧ n'.parent = none ∧ n'.listeners = 0 ∧
      n'.transform = none ∧ n'.bounds = none ∧ n'.mask = none ∧ n'.filters = none ∧
      n'.filterArea = none ∧ n'.destroyed = true) ∧
    (∀ pid p, n.parent = some pid → s.get pid = some p → p.children.count nid ≤ 1 →
      ∃ p', s'.get pid = some p' ∧ nid ∉ p'.children) := by
  unfold destroy at hd
  simp only [hg] at hd
  cases hpar : n.parent with
  | none =>
    simp only [hpar] at hd
    simp only [hg] at hd
    cases hts : transformSet (s.set nid { n with listeners := 0 }) nid none with
    | mk e3 s3 =>
      simp only [hts] at hd
      cases e3 with
      | error e => simp at hd
      | ok u3 =>
        obtain ⟨nn, hnn, hs3⟩ := transformSet_none_ok _ nid u3 s3 hts
        rw [Store.get_set_self] at hnn
        injection hnn with hnn
        subst hnn hs3
        simp only [Store.get_set_self] at hd
        injection hd with h1 h2
        subst h2
        refine ⟨⟨_, Store.get_set_self _ _ _, rfl, rfl, rfl, rfl, rfl, rfl, rfl, rfl⟩, ?_⟩
        intro pid p hpp
        exact absurd hpp (by simp)
  | some pid =>
    simp only [hpar] at hd
    unfold removeChild at hd
    cases hp : s.get pid with
    | none => simp only [hp] at hd; simp at hd
    | some p =>
      simp only [hp] at hd
      have hpn : pid ≠ nid := fun hEq => hself (by rw [hpar, hEq])
      have hgn : (s.set pid { p with children := p.children.erase nid }).get nid = some n := by
        simp [Store.get_set, Ne.symm hpn, hg]
      simp only [hgn, Store.get_set_self] at hd
      cases hts : transformSet
          (((s.set pid { p with children := p.children.erase nid }).set nid
              { n with parent := none }).set nid
            { { n with parent := none } with listeners := 0 }) nid none with
      | mk e3 s3 =>
        simp only [hts] at hd
        cases e3 with
        | error e => simp at hd
        | ok u3 =>
          obtain ⟨nn, hnn, hs3⟩ := transformSet_none_ok _ nid u3 s3 hts
          rw [Store.get_set_self] at hnn
          injection hnn with hnn
          subst hnn hs3
          simp only [Store.get_set_self] at hd
          injection hd with h1 h2
          subst h2
          refine ⟨⟨_, Store.get_set_self _ _ _, rfl, rfl, rfl, rfl, rfl, rfl, rfl, rfl⟩, ?_⟩
          intro pid2 p2 hpp hgp2 hcnt
          injection hpp with hpp
          subst hpp
          rw [hp] at hgp2
          injection hgp2 with hgp2
          subst hgp2
          refine ⟨{ p with children := p.children.erase nid }, ?_, ?_⟩
          · simp [Store.get_set, hpn]
          · have hc : (p.children.erase nid).count nid = p.children.count nid - 1 :=
              List.count_erase_self nid p.children
            have hz : (p.children.erase nid).count nid = 0 := by omega
            exact List.count_eq_zero.mp hz

def c9Parent : NodeRec := { newNodeRec with children := [1] }

def c9Node : NodeRec := { newNodeRec with parent := some 0, mask := some 0, filters := some (), filterArea := some (), listeners := 2 }

def c9Store : Store :=
  { heap := fun j => if j = 0 then some c9Parent else if j = 1 then some c9Node else none,
    nextId := 2, pixiChanged := true, calcCalls := 0 }

/-- Closed witness for C9 on a concrete parent/child heap (the global
changed flag is set, so the transform-null write in `destroy` does not
throw and the call completes). -/
theorem C9_destroy_witness :
    ((∃ n', (destroy c9Store 1).2.get 1 = some n' ∧ n'.parent = none ∧ n'.listeners = 0 ∧
      n'.transform = none ∧ n'.bounds = none ∧ n'.mask = none ∧ n'.filters = none ∧
      n'.filterArea = none ∧ n'.destroyed = true) ∧
    (∀ pid p, c9Node.parent = some pid → c9Store.get pid = some p →
      p.children.count 1 ≤ 1 →
      ∃ p', (destroy c9Store 1).2.get pid = some p' ∧ 1 ∉ p'.children)) :=
  C9_destroy c9Store 1 c9Node () ((destroy c9Store 1).2) rfl (by decide) rfl

end Pixi
